import Mathlib

/-!
Shallow embedding of the `asset-manager` crate (src/lib.rs): a deduplicating
lazy-loading cache.  `AssetState` / `AssetHandle` model the handle state
machine, `AssetManager` models the cache (`assets` vector plus `paths`
index, the `HashMap<PathBuf, usize>` modelled as an association list with
first-match lookup and replace-on-insert).  The loader capability
(`Asset::load`) is passed as an explicit function `loader : Path → R →
Except E T`; `AssetManager.load` additionally reports whether the loader
capability was invoked (`invoked`) and whether a panicking branch was taken
(`panicked`), which in the source is only the `unreachable!` arm.
-/

/-- Filesystem paths are opaque strings to the cache (it never interprets
their structure). -/
abbrev AssetPath := String

/-- `enum AssetState<E>` from src/lib.rs. -/
inductive AssetState (E : Type) where
  | Loaded (idx : Nat)
  | Unloaded (path : AssetPath)
  | Error (path : AssetPath) (e : E)

/-- `impl PartialEq for AssetState<E>`: Loaded compares slot indices,
Unloaded and Error compare paths only; mixed discriminants are unequal. -/
def AssetState.eq {E : Type} : AssetState E → AssetState E → Bool
  | .Loaded idx1, .Loaded idx2 => idx1 == idx2
  | .Unloaded path1, .Unloaded path2 => path1 == path2
  | .Error path1 _, .Error path2 _ => path1 == path2
  | _, _ => false

/-- `impl Hash for AssetState<E>`: the data fed to the hasher is the
discriminant followed by the index (Loaded) or the path (Unloaded/Error);
the error payload is never hashed. -/
def AssetState.hashData {E : Type} : AssetState E → Nat × Option Nat × Option AssetPath
  | .Loaded idx => (0, some idx, none)
  | .Unloaded path => (1, none, some path)
  | .Error path _ => (2, none, some path)

/-- `struct AssetHandle<T>`; the `PhantomData<T>` field carries no data, so
the handle is parameterized only by the error type of its asset kind. -/
structure AssetHandle (E : Type) where
  state : AssetState E

/-- `AssetHandle::new`. -/
def AssetHandle.new {E : Type} (path : AssetPath) : AssetHandle E :=
  ⟨.Unloaded path⟩

/-- `AssetHandle::path`. -/
def AssetHandle.path {E : Type} (h : AssetHandle E) : Option AssetPath :=
  match h.state with
  | .Unloaded p => some p
  | .Error p _ => some p
  | .Loaded _ => none

/-- `AssetHandle::is_unloaded`. -/
def AssetHandle.is_unloaded {E : Type} (h : AssetHandle E) : Bool :=
  match h.state with
  | .Unloaded _ => true
  | _ => false

/-- `AssetHandle::is_loaded`. -/
def AssetHandle.is_loaded {E : Type} (h : AssetHandle E) : Bool :=
  match h.state with
  | .Loaded _ => true
  | _ => false

/-- `AssetHandle::is_err`. -/
def AssetHandle.is_err {E : Type} (h : AssetHandle E) : Bool :=
  match h.state with
  | .Error _ _ => true
  | _ => false

/-- `impl PartialEq for AssetHandle<T>`: delegates to the state. -/
def AssetHandle.eq {E : Type} (h1 h2 : AssetHandle E) : Bool :=
  h1.state.eq h2.state

/-- `impl Hash for AssetHandle<T>`: delegates to the state. -/
def AssetHandle.hashData {E : Type} (h : AssetHandle E) :
    Nat × Option Nat × Option AssetPath :=
  h.state.hashData

/-- First-match lookup in the association list modelling
`HashMap<PathBuf, usize>::get`. -/
def lookupPath (l : List (AssetPath × Nat)) (p : AssetPath) : Option Nat :=
  match l with
  | [] => none
  | (q, i) :: rest => if q = p then some i else lookupPath rest p

/-- `HashMap::insert`: the new binding replaces any existing binding for the
same key (hash maps hold at most one entry per key). -/
def insertPath (l : List (AssetPath × Nat)) (p : AssetPath) (i : Nat) :
    List (AssetPath × Nat) :=
  (p, i) :: l.filter (fun x => x.1 != p)

/-- `struct AssetManager<T>`. -/
structure AssetManager (T E : Type) where
  assets : List T
  paths : List (AssetPath × Nat)

/-- `impl Default for AssetManager<T>`: empty storage, empty index. -/
def AssetManager.default (T E : Type) : AssetManager T E :=
  ⟨[], []⟩

/-- `AssetManager::new` just calls `Self::default()`. -/
def AssetManager.new (T E : Type) : AssetManager T E :=
  AssetManager.default T E

/-- `AssetManager::get`.  The source indexes `self.assets[idx]`, which
panics when out of bounds; the model returns `none` there, and
`AssetManager.getPanics` records exactly when that panic would fire. -/
def AssetManager.get {T E : Type} (m : AssetManager T E) (h : AssetHandle E) :
    Option T :=
  match h.state with
  | .Loaded idx => m.assets[idx]?
  | .Unloaded _ => none
  | .Error _ _ => none

/-- True exactly when `AssetManager::get` would hit the out-of-bounds panic
of `self.assets[idx]`. -/
def AssetManager.getPanics {T E : Type} (m : AssetManager T E)
    (h : AssetHandle E) : Bool :=
  match h.state with
  | .Loaded idx => decide (m.assets.length ≤ idx)
  | .Unloaded _ => false
  | .Error _ _ => false

/-- The full outcome of one `AssetManager::load` call: the updated manager,
the updated handle, the returned `Result` (the source returns `&T::Error`;
the model returns the error value itself), whether the loader capability
`T::load` was invoked, and whether the `unreachable!` panic fired. -/
structure LoadOut (T E : Type) where
  mgr : AssetManager T E
  handle : AssetHandle E
  result : Except E Unit
  invoked : Bool
  panicked : Bool

/-- `AssetManager::load`.  The error arm of the source re-matches the state
it just wrote into the handle and declares the non-`Error` arms
`unreachable!`; those arms are modelled with `panicked := true`. -/
def AssetManager.load {R T E : Type} (loader : AssetPath → R → Except E T)
    (m : AssetManager T E) (handle : AssetHandle E) (r : R) : LoadOut T E :=
  match handle.state with
  | .Loaded _ => ⟨m, handle, .ok (), false, false⟩
  | .Error _ _ => ⟨m, handle, .ok (), false, false⟩
  | .Unloaded path =>
    match lookupPath m.paths path with
    | some idx => ⟨m, ⟨.Loaded idx⟩, .ok (), false, false⟩
    | none =>
      let idx := m.assets.length
      match loader path r with
      | .ok loaded_asset =>
        ⟨⟨m.assets ++ [loaded_asset], insertPath m.paths path idx⟩,
          ⟨.Loaded idx⟩, .ok (), true, false⟩
      | .error e =>
        let hstate : AssetState E := .Error path e
        match hstate with
        | .Error _ e2 => ⟨m, ⟨hstate⟩, .error e2, true, false⟩
        | .Loaded _ => ⟨m, ⟨hstate⟩, .ok (), true, true⟩
        | .Unloaded _ => ⟨m, ⟨hstate⟩, .ok (), true, true⟩

/-- A handle is valid for a manager when any slot index it carries is in
bounds of that manager's storage (the contract that `Loaded` handles only
come from this manager). -/
def validHandle {T E : Type} (m : AssetManager T E) (h : AssetHandle E) : Prop :=
  ∀ idx, h.state = .Loaded idx → idx < m.assets.length

/-- Every slot index recorded in the path index is in bounds of the
storage. -/
def pathsValid {T E : Type} (m : AssetManager T E) : Prop :=
  ∀ p i, lookupPath m.paths p = some i → i < m.assets.length

/-- `Extends loader m m'`: the manager `m'` is obtained from `m` by some
finite sequence of `load` calls (with arbitrary handles and resources).
`get` takes `&self` and cannot change the manager, so this captures every
manager state reachable later in `m`'s lifetime. -/
inductive Extends {R T E : Type} (loader : AssetPath → R → Except E T) :
    AssetManager T E → AssetManager T E → Prop where
  | refl (m : AssetManager T E) : Extends loader m m
  | step (m m' : AssetManager T E) (h : AssetHandle E) (r : R) :
      Extends loader m m' →
      Extends loader m (AssetManager.load loader m' h r).mgr

/-- The lock-step invariant between the path index and the storage: same
number of entries, distinct paths, and the recorded slot indices are
exactly `{0, …, assets.length - 1}` with no duplicates. -/
def indexInvariant {T E : Type} (m : AssetManager T E) : Prop :=
  m.paths.length = m.assets.length ∧
  (m.paths.map Prod.fst).Nodup ∧
  (m.paths.map Prod.snd).Nodup ∧
  (∀ i, i ∈ m.paths.map Prod.snd ↔ i < m.assets.length)

/-! ## Helper lemmas about the path index -/

theorem lookupPath_insert_self (l : List (AssetPath × Nat)) (p : AssetPath)
    (i : Nat) : lookupPath (insertPath l p i) p = some i := by
  simp [insertPath, lookupPath]

theorem lookupPath_filter_ne (l : List (AssetPath × Nat)) (p q : AssetPath)
    (hpq : p ≠ q) :
    lookupPath (l.filter (fun x => x.1 != q)) p = lookupPath l p := by
  induction l with
  | nil => rfl
  | cons a rest ih =>
    obtain ⟨k, v⟩ := a
    by_cases hkq : k = q
    · subst hkq
      simp [List.filter_cons, lookupPath, Ne.symm hpq, ih]
    · have hkq2 : (k != q) = true := bne_iff_ne.mpr hkq
      by_cases hkp : k = p
      · subst hkp
        simp [List.filter_cons, hkq2, lookupPath]
      · simp [List.filter_cons, hkq2, lookupPath, hkp, ih]

theorem lookupPath_insert_ne (l : List (AssetPath × Nat)) (p q : AssetPath)
    (i : Nat) (hpq : p ≠ q) :
    lookupPath (insertPath l q i) p = lookupPath l p := by
  simp only [insertPath, lookupPath]
  rw [if_neg (fun hc => hpq hc.symm)]
  exact lookupPath_filter_ne l p q hpq

theorem lookupPath_none_not_mem (l : List (AssetPath × Nat)) (p : AssetPath)
    (hl : lookupPath l p = none) : p ∉ l.map Prod.fst := by
  induction l with
  | nil => simp
  | cons a rest ih =>
    obtain ⟨k, v⟩ := a
    by_cases hkp : k = p
    · simp [lookupPath, hkp] at hl
    · simp only [lookupPath, hkp, if_false] at hl
      simp [hkp, ih hl, Ne.symm hkp]

theorem filter_ne_of_not_mem (l : List (AssetPath × Nat)) (p : AssetPath)
    (hp : p ∉ l.map Prod.fst) : l.filter (fun x => x.1 != p) = l := by
  induction l with
  | nil => rfl
  | cons a rest ih =>
    obtain ⟨k, v⟩ := a
    simp only [List.map_cons, List.mem_cons] at hp
    push_neg at hp
    have hkp : (k != p) = true := bne_iff_ne.mpr (fun hc => hp.1 hc.symm)
    simp [List.filter_cons, hkp, ih hp.2]

theorem lookupPath_mem_snd (l : List (AssetPath × Nat)) (p : AssetPath)
    (i : Nat) (hl : lookupPath l p = some i) : i ∈ l.map Prod.snd := by
  induction l with
  | nil => simp [lookupPath] at hl
  | cons a rest ih =>
    obtain ⟨k, v⟩ := a
    by_cases hkp : k = p
    · simp [lookupPath, hkp] at hl
      simp [hl]
    · simp only [lookupPath, hkp, if_false] at hl
      simp [ih hl]

/-! ## Characterization of each branch of `AssetManager.load` -/

theorem load_resolved {R T E : Type} (loader : AssetPath → R → Except E T)
    (m : AssetManager T E) (h : AssetHandle E) (r : R)
    (hres : h.is_loaded = true ∨ h.is_err = true) :
    AssetManager.load loader m h r = ⟨m, h, .ok (), false, false⟩ := by
  obtain ⟨s⟩ := h
  cases s with
  | Loaded idx => rfl
  | Error p e => rfl
  | Unloaded p =>
    simp [AssetHandle.is_loaded, AssetHandle.is_err] at hres

theorem load_hit {R T E : Type} (loader : AssetPath → R → Except E T)
    (m : AssetManager T E) (h : AssetHandle E) (r : R) (p : AssetPath)
    (idx : Nat) (hst : h.state = .Unloaded p)
    (hl : lookupPath m.paths p = some idx) :
    AssetManager.load loader m h r = ⟨m, ⟨.Loaded idx⟩, .ok (), false, false⟩ := by
  obtain ⟨s⟩ := h
  cases s with
  | Loaded idx2 => exact AssetState.noConfusion hst
  | Error q e => exact AssetState.noConfusion hst
  | Unloaded q =>
    obtain rfl : q = p := by simpa using hst
    simp [AssetManager.load, hl]

theorem load_miss_ok {R T E : Type} (loader : AssetPath → R → Except E T)
    (m : AssetManager T E) (h : AssetHandle E) (r : R) (p : AssetPath)
    (a : T) (hst : h.state = .Unloaded p)
    (hl : lookupPath m.paths p = none) (ha : loader p r = .ok a) :
    AssetManager.load loader m h r =
      ⟨⟨m.assets ++ [a], insertPath m.paths p m.assets.length⟩,
        ⟨.Loaded m.assets.length⟩, .ok (), true, false⟩ := by
  obtain ⟨s⟩ := h
  cases s with
  | Loaded idx2 => exact AssetState.noConfusion hst
  | Error q e => exact AssetState.noConfusion hst
  | Unloaded q =>
    obtain rfl : q = p := by simpa using hst
    simp [AssetManager.load, hl, ha]

theorem load_miss_err {R T E : Type} (loader : AssetPath → R → Except E T)
    (m : AssetManager T E) (h : AssetHandle E) (r : R) (p : AssetPath)
    (e : E) (hst : h.state = .Unloaded p)
    (hl : lookupPath m.paths p = none) (he : loader p r = .error e) :
    AssetManager.load loader m h r = ⟨m, ⟨.Error p e⟩, .error e, true, false⟩ := by
  obtain ⟨s⟩ := h
  cases s with
  | Loaded idx2 => exact AssetState.noConfusion hst
  | Error q e2 => exact AssetState.noConfusion hst
  | Unloaded q =>
    obtain rfl : q = p := by simpa using hst
    simp [AssetManager.load, hl, he]

/-! ## Preservation lemmas for single `load` steps -/

theorem load_assets_mono {R T E : Type} (loader : AssetPath → R → Except E T)
    (m : AssetManager T E) (h : AssetHandle E) (r : R) :
    m.assets <+: (AssetManager.load loader m h r).mgr.assets := by
  obtain ⟨s⟩ := h
  cases s with
  | Loaded idx => exact List.prefix_refl _
  | Error p e => exact List.prefix_refl _
  | Unloaded p =>
    cases hl : lookupPath m.paths p with
    | some idx =>
      rw [load_hit loader m _ r p idx rfl hl]
    | none =>
      cases ha : loader p r with
      | ok a =>
        rw [load_miss_ok loader m _ r p a rfl hl ha]
        exact List.prefix_append _ _
      | error e =>
        rw [load_miss_err loader m _ r p e rfl hl ha]

theorem load_lookup_mono {R T E : Type} (loader : AssetPath → R → Except E T)
    (m : AssetManager T E) (h : AssetHandle E) (r : R) (p : AssetPath) (i : Nat)
    (hl : lookupPath m.paths p = some i) :
    lookupPath (AssetManager.load loader m h r).mgr.paths p = some i := by
  obtain ⟨s⟩ := h
  cases s with
  | Loaded idx => exact hl
  | Error q e => exact hl
  | Unloaded q =>
    cases hq : lookupPath m.paths q with
    | some idx =>
      rw [load_hit loader m _ r q idx rfl hq]
      exact hl
    | none =>
      cases ha : loader q r with
      | ok a =>
        rw [load_miss_ok loader m _ r q a rfl hq ha]
        have hpq : p ≠ q := by
          intro hc
          subst hc
          rw [hl] at hq
          exact Option.noConfusion hq
        rw [lookupPath_insert_ne _ _ _ _ hpq]
        exact hl
      | error e =>
        rw [load_miss_err loader m _ r q e rfl hq ha]
        exact hl

theorem load_pathsValid {R T E : Type} (loader : AssetPath → R → Except E T)
    (m : AssetManager T E) (h : AssetHandle E) (r : R) (hv : pathsValid m) :
    pathsValid (AssetManager.load loader m h r).mgr := by
  obtain ⟨s⟩ := h
  cases s with
  | Loaded idx => exact hv
  | Error q e => exact hv
  | Unloaded q =>
    cases hq : lookupPath m.paths q with
    | some idx =>
      rw [load_hit loader m _ r q idx rfl hq]
      exact hv
    | none =>
      cases ha : loader q r with
      | ok a =>
        rw [load_miss_ok loader m _ r q a rfl hq ha]
        intro p i hpi
        simp only [List.length_append, List.length_singleton]
        by_cases hpq : p = q
        · subst hpq
          rw [lookupPath_insert_self] at hpi
          have : m.assets.length = i := Option.some.inj hpi
          omega
        · rw [lookupPath_insert_ne _ _ _ _ hpq] at hpi
          have := hv p i hpi
          omega
      | error e =>
        rw [load_miss_err loader m _ r q e rfl hq ha]
        exact hv

theorem load_validHandle {R T E : Type} (loader : AssetPath → R → Except E T)
    (m : AssetManager T E) (h : AssetHandle E) (r : R) (hm : pathsValid m)
    (hh : validHandle m h) :
    validHandle (AssetManager.load loader m h r).mgr
      (AssetManager.load loader m h r).handle := by
  obtain ⟨s⟩ := h
  cases s with
  | Loaded idx => exact hh
  | Error q e =>
    intro j hj
    exact AssetState.noConfusion hj
  | Unloaded q =>
    cases hq : lookupPath m.paths q with
    | some idx =>
      rw [load_hit loader m _ r q idx rfl hq]
      intro j hj
      obtain rfl : idx = j := by simpa using hj
      exact hm q _ hq
    | none =>
      cases ha : loader q r with
      | ok a =>
        rw [load_miss_ok loader m _ r q a rfl hq ha]
        intro j hj
        obtain rfl : m.assets.length = j := by simpa using hj
        simp
      | error e =>
        rw [load_miss_err loader m _ r q e rfl hq ha]
        intro j hj
        exact AssetState.noConfusion hj

theorem Extends_assets_mono {R T E : Type} (loader : AssetPath → R → Except E T)
    (m m' : AssetManager T E) (hext : Extends loader m m') :
    m.assets <+: m'.assets := by
  induction hext with
  | refl => exact List.prefix_refl _
  | step m3 h r hext2 ih => exact ih.trans (load_assets_mono loader m3 h r)

theorem getElem?_eq_of_isPrefix {T : Type} (l1 l2 : List T) (i : Nat)
    (hp : l1 <+: l2) (hi : i < l1.length) : l2[i]? = l1[i]? := by
  obtain ⟨t, rfl⟩ := hp
  rw [List.getElem?_append, if_pos hi]

/-- Concrete loader used to exercise the theorems on closed inputs,
mirroring the byte-length test loader of the spec: `"a.txt"` exists and
loads to `10`, every other path fails with `"not found"`. -/
def testLoader : AssetPath → Unit → Except String Nat :=
  fun p _ => if p = "a.txt" then .ok 10 else .error "not found"

/-! ## Claims -/

/-- C2: for every handle `h` with `h.is_loaded()` or `h.is_err()`, and every
manager state and resources value, `load` returns `Ok` immediately, changes
neither the handle's state nor the manager's assets or path index, and does
not invoke the loader capability. -/
theorem load_idempotent_on_resolved {R T E : Type}
    (loader : AssetPath → R → Except E T) (m : AssetManager T E)
    (h : AssetHandle E) (r : R)
    (hres : h.is_loaded = true ∨ h.is_err = true) :
    (AssetManager.load loader m h r).result = .ok () ∧
    (AssetManager.load loader m h r).handle = h ∧
    (AssetManager.load loader m h r).mgr = m ∧
    (AssetManager.load loader m h r).invoked = false := by
  rw [load_resolved loader m h r hres]
  exact ⟨rfl, rfl, rfl, rfl⟩

/-- Witness for C2 at a concrete resolved handle. -/
theorem load_idempotent_on_resolved_witness :
    ((⟨AssetState.Loaded 0⟩ : AssetHandle String).is_loaded = true ∨
      (⟨AssetState.Loaded 0⟩ : AssetHandle String).is_err = true) ∧
    ((AssetManager.load testLoader (AssetManager.default Nat String)
        ⟨AssetState.Loaded 0⟩ ()).result = .ok () ∧
      (AssetManager.load testLoader (AssetManager.default Nat String)
        ⟨AssetState.Loaded 0⟩ ()).handle = ⟨AssetState.Loaded 0⟩ ∧
      (AssetManager.load testLoader (AssetManager.default Nat String)
        ⟨AssetState.Loaded 0⟩ ()).mgr = AssetManager.default Nat String ∧
      (AssetManager.load testLoader (AssetManager.default Nat String)
        ⟨AssetState.Loaded 0⟩ ()).invoked = false) :=
  ⟨Or.inl rfl,
    load_idempotent_on_resolved testLoader (AssetManager.default Nat String)
      ⟨AssetState.Loaded 0⟩ () (Or.inl rfl)⟩

/-- C9: `path()` returns the stored path when the handle state is Unloaded
or Error (Failed), and returns nothing when the state is Loaded. -/
theorem path_state_accessor {E : Type} :
    (∀ (h : AssetHandle E) (p : AssetPath),
      h.state = .Unloaded p → h.path = some p) ∧
    (∀ (h : AssetHandle E) (p : AssetPath) (e : E),
      h.state = .Error p e → h.path = some p) ∧
    (∀ (h : AssetHandle E) (i : Nat),
      h.state = .Loaded i → h.path = none) := by
  refine ⟨?_, ?_, ?_⟩
  · intro h p hst
    simp [AssetHandle.path, hst]
  · intro h p e hst
    simp [AssetHandle.path, hst]
  · intro h i hst
    simp [AssetHandle.path, hst]

/-- Witness for C9 at concrete handles in each of the three states. -/
theorem path_state_accessor_witness :
    (AssetHandle.new (E := String) "a.txt").path = some "a.txt" ∧
    (⟨AssetState.Error "a.txt" "e"⟩ : AssetHandle String).path = some "a.txt" ∧
    (⟨AssetState.Loaded 3⟩ : AssetHandle String).path = none :=
  ⟨path_state_accessor.1 (AssetHandle.new "a.txt") "a.txt" rfl,
    path_state_accessor.2.1 ⟨AssetState.Error "a.txt" "e"⟩ "a.txt" "e" rfl,
    path_state_accessor.2.2 ⟨AssetState.Loaded 3⟩ 3 rfl⟩

/-- C8: handle equality is defined purely on state — two Loaded handles are
equal iff they carry the same slot index, two Unloaded handles iff the same
path, two Error (Failed) handles iff the same path with the error payload
never consulted; handle hash input is likewise a function of the state with
the error payload ignored. -/
theorem handle_eq_hash_state_only {E : Type} :
    (∀ i j : Nat,
      AssetHandle.eq (E := E) ⟨.Loaded i⟩ ⟨.Loaded j⟩ = true ↔ i = j) ∧
    (∀ p q : AssetPath,
      AssetHandle.eq (E := E) ⟨.Unloaded p⟩ ⟨.Unloaded q⟩ = true ↔ p = q) ∧
    (∀ (p q : AssetPath) (e1 e2 : E),
      AssetHandle.eq ⟨.Error p e1⟩ ⟨.Error q e2⟩ = true ↔ p = q) ∧
    (∀ (p : AssetPath) (e1 e2 : E),
      AssetHandle.hashData (⟨.Error p e1⟩ : AssetHandle E) =
        AssetHandle.hashData ⟨.Error p e2⟩) ∧
    (∀ h1 h2 : AssetHandle E, h1.eq h2 = h1.state.eq h2.state) := by
  refine ⟨?_, ?_, ?_, ?_, ?_⟩ <;> intros <;>
    simp [AssetHandle.eq, AssetState.eq, AssetHandle.hashData,
      AssetState.hashData]

/-- Witness for C8: two Error handles with the same path but different
error payloads compare equal and feed identical data to the hasher. -/
theorem handle_eq_hash_state_only_witness :
    AssetHandle.eq (E := String)
      ⟨AssetState.Error "a.txt" "x"⟩ ⟨AssetState.Error "a.txt" "y"⟩ = true ∧
    AssetHandle.hashData (⟨AssetState.Error "a.txt" "x"⟩ : AssetHandle String) =
      AssetHandle.hashData ⟨AssetState.Error "a.txt" "y"⟩ :=
  ⟨(handle_eq_hash_state_only.2.2.1 "a.txt" "a.txt" "x" "y").mpr rfl,
    handle_eq_hash_state_only.2.2.2.1 "a.txt" "x" "y"⟩

/-- C5: `get` is a pure read keyed off the handle state — assuming the
handle's slot index (if any) is in bounds for this manager, `get` returns a
stored value iff the handle is loaded, and returns nothing for Unloaded or
Error handles. -/
theorem get_pure_read {T E : Type} (m : AssetManager T E) (h : AssetHandle E)
    (hv : validHandle m h) :
    ((m.get h).isSome = true ↔ h.is_loaded = true) ∧
    (h.is_loaded = false → m.get h = none) := by
  obtain ⟨s⟩ := h
  cases s with
  | Loaded idx =>
    have hlt : idx < m.assets.length := hv idx rfl
    constructor
    · simp [AssetManager.get, AssetHandle.is_loaded,
        List.getElem?_eq_getElem hlt]
    · intro hc
      simp [AssetHandle.is_loaded] at hc
  | Unloaded p =>
    constructor
    · simp [AssetManager.get, AssetHandle.is_loaded]
    · intro hc
      rfl
  | Error p e =>
    constructor
    · simp [AssetManager.get, AssetHandle.is_loaded]
    · intro hc
      rfl

/-- Witness for C5 on a one-asset manager with an in-bounds Loaded handle. -/
theorem get_pure_read_witness :
    (((⟨[10], [("a.txt", 0)]⟩ : AssetManager Nat String).get
        ⟨AssetState.Loaded 0⟩).isSome = true ↔
      (⟨AssetState.Loaded 0⟩ : AssetHandle String).is_loaded = true) ∧
    ((⟨AssetState.Loaded 0⟩ : AssetHandle String).is_loaded = false →
      (⟨[10], [("a.txt", 0)]⟩ : AssetManager Nat String).get
        ⟨AssetState.Loaded 0⟩ = none) :=
  get_pure_read (⟨[10], [("a.txt", 0)]⟩ : AssetManager Nat String)
    ⟨AssetState.Loaded 0⟩
    (fun idx hidx => by injection hidx with h2; subst h2; decide)

/-- C7: no panic in normal operation — when every Loaded slot index passed
in is in bounds (the slot-stability contract), `get`'s indexing never
panics, and the `unreachable!` arm in `load`'s failure branch is never
taken for any input. -/
theorem no_panic_normal_operation {R T E : Type}
    (loader : AssetPath → R → Except E T) :
    (∀ (m : AssetManager T E) (h : AssetHandle E),
      validHandle m h → m.getPanics h = false) ∧
    (∀ (m : AssetManager T E) (h : AssetHandle E) (r : R),
      (AssetManager.load loader m h r).panicked = false) := by
  constructor
  · intro m h hv
    obtain ⟨s⟩ := h
    cases s with
    | Loaded idx =>
      have hlt := hv idx rfl
      simp [AssetManager.getPanics]
      omega
    | Unloaded p => rfl
    | Error p e => rfl
  · intro m h r
    obtain ⟨s⟩ := h
    cases s with
    | Loaded idx => rfl
    | Error p e => rfl
    | Unloaded p =>
      cases hq : lookupPath m.paths p with
      | some idx => rw [load_hit loader m _ r p idx rfl hq]
      | none =>
        cases ha : loader p r with
        | ok a => rw [load_miss_ok loader m _ r p a rfl hq ha]
        | error e => rw [load_miss_err loader m _ r p e rfl hq ha]

/-- Witness for C7: a valid Loaded handle does not panic in `get`, and a
failing `load` does not reach the `unreachable!` arm. -/
theorem no_panic_normal_operation_witness :
    (⟨[10], [("a.txt", 0)]⟩ : AssetManager Nat String).getPanics
      ⟨AssetState.Loaded 0⟩ = false ∧
    (AssetManager.load testLoader (AssetManager.default Nat String)
      (AssetHandle.new "missing.txt") ()).panicked = false :=
  ⟨(no_panic_normal_operation testLoader).1
      (⟨[10], [("a.txt", 0)]⟩ : AssetManager Nat String) ⟨AssetState.Loaded 0⟩
      (fun idx hidx => by injection hidx with h2; subst h2; decide),
    (no_panic_normal_operation testLoader).2 (AssetManager.default Nat String)
      (AssetHandle.new "missing.txt") ()⟩

/-- C4: successful first-time load — for an Unloaded handle whose path is
absent from the path index, a successful loader invocation appends the
value at slot index `assets.length`, records `path -> slot` in the index,
sets the handle to Loaded at that slot, and returns success. -/
theorem load_success_postcondition {R T E : Type}
    (loader : AssetPath → R → Except E T) (m : AssetManager T E)
    (h : AssetHandle E) (r : R) (p : AssetPath) (a : T)
    (hst : h.state = .Unloaded p) (hl : lookupPath m.paths p = none)
    (ha : loader p r = .ok a) :
    (AssetManager.load loader m h r).result = .ok () ∧
    (AssetManager.load loader m h r).mgr.assets = m.assets ++ [a] ∧
    (AssetManager.load loader m h r).mgr.paths =
      insertPath m.paths p m.assets.length ∧
    lookupPath (AssetManager.load loader m h r).mgr.paths p =
      some m.assets.length ∧
    (AssetManager.load loader m h r).handle.state = .Loaded m.assets.length ∧
    (AssetManager.load loader m h r).invoked = true := by
  rw [load_miss_ok loader m h r p a hst hl ha]
  exact ⟨rfl, rfl, rfl, lookupPath_insert_self _ _ _, rfl, rfl⟩

/-- Witness for C4: loading `"a.txt"` into an empty manager. -/
theorem load_success_postcondition_witness :
    (AssetManager.load testLoader (AssetManager.default Nat String)
      (AssetHandle.new "a.txt") ()).result = .ok () ∧
    (AssetManager.load testLoader (AssetManager.default Nat String)
      (AssetHandle.new "a.txt") ()).mgr.assets = [] ++ [10] ∧
    (AssetManager.load testLoader (AssetManager.default Nat String)
      (AssetHandle.new "a.txt") ()).mgr.paths = insertPath [] "a.txt" 0 ∧
    lookupPath (AssetManager.load testLoader (AssetManager.default Nat String)
      (AssetHandle.new "a.txt") ()).mgr.paths "a.txt" = some 0 ∧
    (AssetManager.load testLoader (AssetManager.default Nat String)
      (AssetHandle.new "a.txt") ()).handle.state = .Loaded 0 ∧
    (AssetManager.load testLoader (AssetManager.default Nat String)
      (AssetHandle.new "a.txt") ()).invoked = true :=
  load_success_postcondition testLoader (AssetManager.default Nat String)
    (AssetHandle.new "a.txt") () "a.txt" 10 rfl rfl rfl

/-- C3: failure handling and atomicity — for an Unloaded handle whose path
is absent from the path index, a failing loader invocation sets the handle
to Error(path, error), returns that error, leaves the manager unchanged,
and a later fresh handle for the same path triggers a fresh loader
invocation. -/
theorem load_failure_atomic {R T E : Type}
    (loader : AssetPath → R → Except E T) (m : AssetManager T E)
    (h : AssetHandle E) (r : R) (p : AssetPath) (e : E)
    (hst : h.state = .Unloaded p) (hl : lookupPath m.paths p = none)
    (he : loader p r = .error e) :
    (AssetManager.load loader m h r).result = .error e ∧
    (AssetManager.load loader m h r).handle.state = .Error p e ∧
    (AssetManager.load loader m h r).mgr = m ∧
    (AssetManager.load loader m h r).invoked = true ∧
    (∀ r2 : R,
      (AssetManager.load loader (AssetManager.load loader m h r).mgr
        (AssetHandle.new p) r2).invoked = true) := by
  rw [load_miss_err loader m h r p e hst hl he]
  refine ⟨rfl, rfl, rfl, rfl, ?_⟩
  intro r2
  cases ha : loader p r2 with
  | ok a => rw [load_miss_ok loader m (AssetHandle.new p) r2 p a rfl hl ha]
  | error e2 => rw [load_miss_err loader m (AssetHandle.new p) r2 p e2 rfl hl ha]

/-- Witness for C3: loading `"missing.txt"` fails, leaves the manager
unchanged, and a fresh handle re-invokes the loader. -/
theorem load_failure_atomic_witness :
    (AssetManager.load testLoader (AssetManager.default Nat String)
      (AssetHandle.new "missing.txt") ()).result = .error "not found" ∧
    (AssetManager.load testLoader (AssetManager.default Nat String)
      (AssetHandle.new "missing.txt") ()).handle.state =
      .Error "missing.txt" "not found" ∧
    (AssetManager.load testLoader (AssetManager.default Nat String)
      (AssetHandle.new "missing.txt") ()).mgr = AssetManager.default Nat String ∧
    (AssetManager.load testLoader (AssetManager.default Nat String)
      (AssetHandle.new "missing.txt") ()).invoked = true ∧
    (∀ r2 : Unit,
      (AssetManager.load testLoader
        (AssetManager.load testLoader (AssetManager.default Nat String)
          (AssetHandle.new "missing.txt") ()).mgr
        (AssetHandle.new "missing.txt") r2).invoked = true) :=
  load_failure_atomic testLoader (AssetManager.default Nat String)
    (AssetHandle.new "missing.txt") () "missing.txt" "not found" rfl rfl rfl

/-- After a successful `load` of a fresh handle for `p`, the handle is
Loaded at some slot and the path index maps `p` to that same slot. -/
theorem load_fresh_ok_lookup {R T E : Type}
    (loader : AssetPath → R → Except E T) (m : AssetManager T E)
    (p : AssetPath) (r : R)
    (hs : (AssetManager.load loader m (AssetHandle.new p) r).result = .ok ()) :
    ∃ i, (AssetManager.load loader m (AssetHandle.new p) r).handle.state =
        .Loaded i ∧
      lookupPath (AssetManager.load loader m (AssetHandle.new p) r).mgr.paths p =
        some i := by
  cases hq : lookupPath m.paths p with
  | some idx =>
    rw [load_hit loader m (AssetHandle.new p) r p idx rfl hq]
    exact ⟨idx, rfl, hq⟩
  | none =>
    cases ha : loader p r with
    | ok a =>
      rw [load_miss_ok loader m (AssetHandle.new p) r p a rfl hq ha]
      exact ⟨m.assets.length, rfl, lookupPath_insert_self _ _ _⟩
    | error e =>
      rw [load_miss_err loader m (AssetHandle.new p) r p e rfl hq ha] at hs
      exact Except.noConfusion hs

/-- C1: deduplication by path — if a fresh handle for `p` loads
successfully, a second fresh handle for `p` also loads successfully, ends
Loaded at the same slot (so `get` yields the same stored value), the
manager is unchanged, and the loader is not invoked again; moreover, once
`p` is in the path index its slot entry survives every later `load`, and no
`load` of an Unloaded-`p` handle invokes the loader while `p` is
indexed. -/
theorem dedup_by_path {R T E : Type} (loader : AssetPath → R → Except E T)
    (m : AssetManager T E) (p : AssetPath) (r r2 : R)
    (hs : (AssetManager.load loader m (AssetHandle.new p) r).result = .ok ()) :
    ((AssetManager.load loader
        (AssetManager.load loader m (AssetHandle.new p) r).mgr
        (AssetHandle.new p) r2).result = .ok () ∧
      (AssetManager.load loader
        (AssetManager.load loader m (AssetHandle.new p) r).mgr
        (AssetHandle.new p) r2).invoked = false ∧
      (AssetManager.load loader
        (AssetManager.load loader m (AssetHandle.new p) r).mgr
        (AssetHandle.new p) r2).handle.state =
        (AssetManager.load loader m (AssetHandle.new p) r).handle.state ∧
      (AssetManager.load loader
        (AssetManager.load loader m (AssetHandle.new p) r).mgr
        (AssetHandle.new p) r2).mgr =
        (AssetManager.load loader m (AssetHandle.new p) r).mgr ∧
      (AssetManager.load loader m (AssetHandle.new p) r).mgr.get
        (AssetManager.load loader
          (AssetManager.load loader m (AssetHandle.new p) r).mgr
          (AssetHandle.new p) r2).handle =
        (AssetManager.load loader m (AssetHandle.new p) r).mgr.get
          (AssetManager.load loader m (AssetHandle.new p) r).handle) ∧
    (∀ (m2 : AssetManager T E) (h2 : AssetHandle E) (r3 : R) (i : Nat),
      lookupPath m2.paths p = some i →
      lookupPath (AssetManager.load loader m2 h2 r3).mgr.paths p = some i) ∧
    (∀ (m2 : AssetManager T E) (h2 : AssetHandle E) (r3 : R) (i : Nat),
      lookupPath m2.paths p = some i → h2.state = .Unloaded p →
      (AssetManager.load loader m2 h2 r3).invoked = false) := by
  obtain ⟨i, hh, hl⟩ := load_fresh_ok_lookup loader m p r hs
  refine ⟨?_, ?_, ?_⟩
  · rw [load_hit loader (AssetManager.load loader m (AssetHandle.new p) r).mgr
        (AssetHandle.new p) r2 p i rfl hl]
    refine ⟨rfl, rfl, hh.symm, rfl, ?_⟩
    simp [AssetManager.get, hh]
  · intro m2 h2 r3 i2 hi2
    exact load_lookup_mono loader m2 h2 r3 p i2 hi2
  · intro m2 h2 r3 i2 hi2 hst
    rw [load_hit loader m2 h2 r3 p i2 hst hi2]

/-- Witness for C1: two fresh handles for `"a.txt"` against an empty
manager — the second load hits the dedup index. -/
theorem dedup_by_path_witness :
    (AssetManager.load testLoader (AssetManager.default Nat String)
      (AssetHandle.new "a.txt") ()).result = .ok () ∧
    (((AssetManager.load testLoader
        (AssetManager.load testLoader (AssetManager.default Nat String)
          (AssetHandle.new "a.txt") ()).mgr
        (AssetHandle.new "a.txt") ()).result = .ok () ∧
      (AssetManager.load testLoader
        (AssetManager.load testLoader (AssetManager.default Nat String)
          (AssetHandle.new "a.txt") ()).mgr
        (AssetHandle.new "a.txt") ()).invoked = false ∧
      (AssetManager.load testLoader
        (AssetManager.load testLoader (AssetManager.default Nat String)
          (AssetHandle.new "a.txt") ()).mgr
        (AssetHandle.new "a.txt") ()).handle.state =
        (AssetManager.load testLoader (AssetManager.default Nat String)
          (AssetHandle.new "a.txt") ()).handle.state ∧
      (AssetManager.load testLoader
        (AssetManager.load testLoader (AssetManager.default Nat String)
          (AssetHandle.new "a.txt") ()).mgr
        (AssetHandle.new "a.txt") ()).mgr =
        (AssetManager.load testLoader (AssetManager.default Nat String)
          (AssetHandle.new "a.txt") ()).mgr ∧
      (AssetManager.load testLoader (AssetManager.default Nat String)
        (AssetHandle.new "a.txt") ()).mgr.get
        (AssetManager.load testLoader
          (AssetManager.load testLoader (AssetManager.default Nat String)
            (AssetHandle.new "a.txt") ()).mgr
          (AssetHandle.new "a.txt") ()).handle =
        (AssetManager.load testLoader (AssetManager.default Nat String)
          (AssetHandle.new "a.txt") ()).mgr.get
          (AssetManager.load testLoader (AssetManager.default Nat String)
            (AssetHandle.new "a.txt") ()).handle) ∧
    (∀ (m2 : AssetManager Nat String) (h2 : AssetHandle String) (r3 : Unit)
        (i : Nat),
      lookupPath m2.paths "a.txt" = some i →
      lookupPath (AssetManager.load testLoader m2 h2 r3).mgr.paths "a.txt" =
        some i) ∧
    (∀ (m2 : AssetManager Nat String) (h2 : AssetHandle String) (r3 : Unit)
        (i : Nat),
      lookupPath m2.paths "a.txt" = some i → h2.state = .Unloaded "a.txt" →
      (AssetManager.load testLoader m2 h2 r3).invoked = false)) :=
  ⟨rfl, dedup_by_path testLoader (AssetManager.default Nat String) "a.txt" () ()
    rfl⟩

/-- C6: slot stability — storage is append-only across every sequence of
operations (any later manager state extends the earlier assets list, so an
in-bounds slot index stays in bounds and denotes the same value), and one
`load` step preserves both the bounds-validity of the path index and of the
handle it returns. -/
theorem slot_stability {R T E : Type} (loader : AssetPath → R → Except E T) :
    (∀ m m' : AssetManager T E,
      Extends loader m m' → m.assets <+: m'.assets) ∧
    (∀ (m m' : AssetManager T E) (i : Nat), Extends loader m m' →
      i < m.assets.length →
      i < m'.assets.length ∧ m'.assets[i]? = m.assets[i]?) ∧
    (∀ (m : AssetManager T E) (h : AssetHandle E) (r : R),
      pathsValid m → validHandle m h →
      pathsValid (AssetManager.load loader m h r).mgr ∧
      validHandle (AssetManager.load loader m h r).mgr
        (AssetManager.load loader m h r).handle) := by
  refine ⟨fun m m' hext => Extends_assets_mono loader m m' hext, ?_, ?_⟩
  · intro m m' i hext hi
    have hp := Extends_assets_mono loader m m' hext
    exact ⟨lt_of_lt_of_le hi hp.length_le,
      getElem?_eq_of_isPrefix _ _ _ hp hi⟩
  · intro m h r hm hh
    exact ⟨load_pathsValid loader m h r hm, load_validHandle loader m h r hm hh⟩

/-- Witness for C6: one load step from the empty manager keeps the slot of
`"a.txt"` stable and valid. -/
theorem slot_stability_witness :
    ((AssetManager.default Nat String).assets <+:
      (AssetManager.load testLoader (AssetManager.default Nat String)
        (AssetHandle.new "a.txt") ()).mgr.assets) ∧
    (pathsValid (AssetManager.load testLoader (AssetManager.default Nat String)
        (AssetHandle.new "a.txt") ()).mgr ∧
      validHandle
        (AssetManager.load testLoader (AssetManager.default Nat String)
          (AssetHandle.new "a.txt") ()).mgr
        (AssetManager.load testLoader (AssetManager.default Nat String)
          (AssetHandle.new "a.txt") ()).handle) :=
  ⟨(slot_stability testLoader).1 (AssetManager.default Nat String)
      (AssetManager.load testLoader (AssetManager.default Nat String)
        (AssetHandle.new "a.txt") ()).mgr
      (Extends.step (AssetManager.default Nat String)
        (AssetManager.default Nat String) (AssetHandle.new "a.txt") ()
        (Extends.refl (AssetManager.default Nat String))),
    (slot_stability testLoader).2.2 (AssetManager.default Nat String)
      (AssetHandle.new "a.txt") ()
      (fun _ _ hpi => Option.noConfusion hpi)
      (fun _ hidx => AssetState.noConfusion hidx)⟩

/-- One `load` step preserves the lock-step invariant between the path
index and the storage. -/
theorem load_indexInvariant {R T E : Type}
    (loader : AssetPath → R → Except E T) (m : AssetManager T E)
    (h : AssetHandle E) (r : R) (ih : indexInvariant m) :
    indexInvariant (AssetManager.load loader m h r).mgr := by
  obtain ⟨s⟩ := h
  cases s with
  | Loaded idx => exact ih
  | Error q e => exact ih
  | Unloaded q =>
    cases hq : lookupPath m.paths q with
    | some idx =>
      rw [load_hit loader m ⟨AssetState.Unloaded q⟩ r q idx rfl hq]
      exact ih
    | none =>
      cases ha : loader q r with
      | error e =>
        rw [load_miss_err loader m ⟨AssetState.Unloaded q⟩ r q e rfl hq ha]
        exact ih
      | ok a =>
        rw [load_miss_ok loader m ⟨AssetState.Unloaded q⟩ r q a rfl hq ha]
        obtain ⟨hlen, hknd, hvnd, hviff⟩ := ih
        have hqnot : q ∉ m.paths.map Prod.fst :=
          lookupPath_none_not_mem m.paths q hq
        have hins : insertPath m.paths q m.assets.length =
            (q, m.assets.length) :: m.paths := by
          unfold insertPath
          rw [filter_ne_of_not_mem m.paths q hqnot]
        refine ⟨?_, ?_, ?_, ?_⟩
        · simp only [hins, List.length_cons, List.length_append,
            List.length_singleton, List.length_nil, hlen]
        · simp only [hins, List.map_cons, List.nodup_cons]
          exact ⟨hqnot, hknd⟩
        · simp only [hins, List.map_cons, List.nodup_cons]
          refine ⟨?_, hvnd⟩
          intro hc
          have := (hviff m.assets.length).mp hc
          omega
        · intro i
          simp only [hins, List.map_cons, List.mem_cons, hviff i,
            List.length_append, List.length_singleton]
          omega

/-- C10 (implicit invariant): in every manager reachable from
`new`/`default` by `load` calls, the path index has exactly as many entries
as the assets storage, with pairwise-distinct paths, and its slot values
are exactly `{0, …, assets.length - 1}` with no duplicates. -/
theorem path_index_bijective {R T E : Type}
    (loader : AssetPath → R → Except E T) (m : AssetManager T E)
    (hext : Extends loader (AssetManager.default T E) m) :
    indexInvariant m := by
  induction hext with
  | refl =>
    refine ⟨rfl, List.nodup_nil, List.nodup_nil, ?_⟩
    intro i
    simp [AssetManager.default]
  | step m3 h r hext2 ih2 => exact load_indexInvariant loader m3 h r ih2

/-- Witness for C10 on the manager reached by one successful load. -/
theorem path_index_bijective_witness :
    indexInvariant (AssetManager.load testLoader
      (AssetManager.default Nat String) (AssetHandle.new "a.txt") ()).mgr :=
  path_index_bijective testLoader _
    (Extends.step (AssetManager.default Nat String)
      (AssetManager.default Nat String) (AssetHandle.new "a.txt") ()
      (Extends.refl (AssetManager.default Nat String)))
